import Mathlib

/-!
# Verification of the Rogers-FastFood service worker

Shallow embedding of the service worker (`sw.js`) of the Rogers-FastFood
repository: the constant cache names and asset lists, the install, activate,
fetch and message event handlers, and the browser Cache API operations they
use (`caches.open`, `caches.match`, `caches.delete`, `cache.addAll`,
`cache.put`).

Modelling choices:
* A cache partition is an association list from request URL to stored
  response; `cache.put` overwrites the entry for an existing key in place
  (last write wins per key), otherwise appends.
* The cache storage (`caches`) is an association list from partition name to
  partition, in creation order; `caches.match` searches the partitions in
  that order and returns the first hit, as the browser does.
* The network is a function `String → Option Response`; `none` models a
  rejected fetch (network failure), `some r` a fetch resolving with `r`.
* `cache.addAll` fetches every URL of its list and rejects if any single
  fetch rejects; on success it writes all pairs atomically (all-or-nothing,
  as the Cache API batch operation does).
* A promise handed to `event.waitUntil` either fulfills or rejects; the
  `Settled` type records which.  A trailing `.catch` handler that returns
  no value converts a rejection into fulfillment with `undefined`, which is
  how the JS source's `.catch((error) => console.error(...))` behaves.
* `event.respondWith(p)`: the fetch event's outcome is `respond (some r)`
  when `p` fulfills with response `r`, `respond none` when `p` fulfills with
  `undefined`, and `failed` when `p` rejects.  A handler that returns without
  calling `respondWith` yields `passThrough`.
-/

namespace RogersSW

/-- An HTTP response: status code and body text. -/
structure Response where
  status : Nat
  body : String
deriving DecidableEq, Repr

/-- A cache partition: association list from request URL to stored response. -/
abbrev Partition := List (String × Response)

/-- The cache storage: association list from partition name to partition,
in creation order. -/
abbrev CacheState := List (String × Partition)

/-- Constant `CACHE_NAME = 'rogers-restaurant-v2'` (sw.js line 2). -/
def CACHE_NAME : String := "rogers-restaurant-v2"

/-- Constant `STATIC_CACHE = 'rogers-static-v2'` (sw.js line 3). -/
def STATIC_CACHE : String := "rogers-static-v2"

/-- Constant `DYNAMIC_CACHE = 'rogers-dynamic-v2'` (sw.js line 4). -/
def DYNAMIC_CACHE : String := "rogers-dynamic-v2"

/-- Constant `STATIC_ASSETS` (sw.js lines 7-14). -/
def STATIC_ASSETS : List String :=
  ["./",
   "./rogers.html",
   "./images/logo.jpg",
   "./images/ovenwings.jpg",
   "./images/pexels-zain-ali-549209752-27645103.jpg",
   "./images/rogers1.mp4"]

/-- Constant `EXTERNAL_RESOURCES` (sw.js lines 17-22). -/
def EXTERNAL_RESOURCES : List String :=
  ["https://fonts.googleapis.com/css2?family=Inter:wght@300;400;500;600;700;800&family=Space+Grotesk:wght@300;400;500;600;700;800&family=Poppins:wght@300;400;500;600;700;800&display=swap",
   "https://unpkg.com/react@17/umd/react.production.min.js",
   "https://unpkg.com/react-dom@17/umd/react-dom.production.min.js",
   "https://unpkg.com/@babel/standalone/babel.min.js"]

/-- Model of `cache.put(request, response)`: overwrite the entry for the request URL
if present (every entry with that key gets the new response), else append. -/
def partPut (p : Partition) (k : String) (v : Response) : Partition :=
  if p.any (fun e => e.1 = k) then
    p.map (fun e => if e.1 = k then (k, v) else e)
  else
    p ++ [(k, v)]

/-- Lookup of a URL inside one partition (`cache.match` restricted to it). -/
def partLookup (p : Partition) (k : String) : Option Response :=
  (p.find? (fun e => e.1 = k)).map (·.2)

/-- Model of `caches.open(name)`: return the storage, creating the named partition
(empty) at the end if absent. -/
def cacheOpen (cs : CacheState) (name : String) : CacheState :=
  if cs.any (fun e => e.1 = name) then cs else cs ++ [(name, [])]

/-- Partition lookup in the cache storage. -/
def lookupPartition (cs : CacheState) (name : String) : Option Partition :=
  (cs.find? (fun e => e.1 = name)).map (·.2)

/-- Model of `caches.match(request)`: search every partition in creation order,
first hit wins. -/
def cachesMatch : CacheState → String → Option Response
  | [], _ => none
  | (_, p) :: rest, url =>
    match partLookup p url with
    | some r => some r
    | none => cachesMatch rest url

/-- Write one entry into the named partition of the storage (the partition
is assumed open; every partition of that name is updated). -/
def writeEntry (cs : CacheState) (name : String) (k : String) (v : Response) : CacheState :=
  cs.map (fun e => if e.1 = name then (e.1, partPut e.2 k v) else e)

/-- Model of `caches.open(name).then((cache) => cache.put(request, clone))`
as performed by the fetch interceptor (sw.js lines 97-100 and 119-122). -/
def cachePutIn (cs : CacheState) (name : String) (k : String) (v : Response) : CacheState :=
  writeEntry (cacheOpen cs name) name k v

/-- The fetch phase of `cache.addAll(urls)`: fetch every URL; reject
(`none`) if any single fetch rejects, else return all pairs. -/
def addAllFetch (net : String → Option Response) : List String → Option (List (String × Response))
  | [] => some []
  | u :: rest =>
    match net u with
    | none => none
    | some r => (addAllFetch net rest).map (fun l => (u, r) :: l)

/-- Put a list of fetched pairs into a partition, in order. -/
def partPutAll (p : Partition) (l : List (String × Response)) : Partition :=
  l.foldl (fun q e => partPut q e.1 e.2) p

/-- Write a list of fetched pairs into the named (already open) partition. -/
def writeAll (cs : CacheState) (name : String) (l : List (String × Response)) : CacheState :=
  cs.map (fun e => if e.1 = name then (e.1, partPutAll e.2 l) else e)

/-- Outcome of a promise handed to `event.waitUntil`. -/
inductive Settled where
  | fulfilled
  | rejected
deriving DecidableEq, Repr

/-- Result of running the install handler: the cache storage afterwards,
whether `self.skipWaiting()` was called, and how the `waitUntil` promise
settled. -/
structure InstallResult where
  caches : CacheState
  skipWaiting : Bool
  settled : Settled
deriving DecidableEq, Repr

/-- The promise chain built inside `event.waitUntil` by the install handler
(sw.js lines 27-44), without the trailing `.catch`:
open the static partition, `addAll` the static assets, open the dynamic
partition, `addAll` the external resources, then `self.skipWaiting()`.
A rejection anywhere skips the remaining `.then` steps and rejects. -/
def installChain (net : String → Option Response) (cs : CacheState) : InstallResult :=
  match addAllFetch net STATIC_ASSETS with
  | none => ⟨cacheOpen cs STATIC_CACHE, false, Settled.rejected⟩
  | some l =>
    match addAllFetch net EXTERNAL_RESOURCES with
    | none =>
      ⟨cacheOpen (writeAll (cacheOpen cs STATIC_CACHE) STATIC_CACHE l) DYNAMIC_CACHE,
       false, Settled.rejected⟩
    | some l2 =>
      ⟨writeAll
         (cacheOpen (writeAll (cacheOpen cs STATIC_CACHE) STATIC_CACHE l) DYNAMIC_CACHE)
         DYNAMIC_CACHE l2,
       true, Settled.fulfilled⟩

/-- The install handler (sw.js lines 25-49): the chain above followed by
`.catch((error) => console.error(...))`, whose handler returns no value, so
any rejection is converted into fulfillment with `undefined`. -/
def installHandler (net : String → Option Response) (cs : CacheState) : InstallResult :=
  ⟨(installChain net cs).caches, (installChain net cs).skipWaiting, Settled.fulfilled⟩

/-- The activate handler (sw.js lines 52-71): enumerate all partition names
and delete every partition whose name is neither `STATIC_CACHE` nor
`DYNAMIC_CACHE`. -/
def activateHandler (cs : CacheState) : CacheState :=
  cs.filter (fun e => e.1 = STATIC_CACHE ∨ e.1 = DYNAMIC_CACHE)

/-- A request as seen by the fetch interceptor: its URL, method, the origin
of its URL, and its declared destination. -/
structure Request where
  url : String
  method : String
  origin : String
  destination : String

/-- Outcome of a fetch event: the handler returned without calling
`respondWith` (pass through to the network); `respondWith` with a promise
that fulfilled with a response or with `undefined`; or `respondWith` with a
promise that rejected. -/
inductive FetchOutcome where
  | passThrough
  | respond (r : Option Response)
  | failed
deriving DecidableEq, Repr

/-- Result of running the fetch handler: the event outcome, the cache
storage afterwards, and how many network fetches were performed. -/
structure FetchResult where
  outcome : FetchOutcome
  caches : CacheState
  netCalls : Nat
deriving Repr

/-- The fetch handler (sw.js lines 74-135).  `selfOrigin` is
`self.location.origin`; `net` is the network. -/
def fetchHandler (selfOrigin : String) (net : String → Option Response)
    (cs : CacheState) (req : Request) : FetchResult :=
  if req.method ≠ "GET" then
    ⟨FetchOutcome.passThrough, cs, 0⟩
  else if req.origin = selfOrigin then
    match cachesMatch cs req.url with
    | some r => ⟨FetchOutcome.respond (some r), cs, 0⟩
    | none =>
      match net req.url with
      | some fr =>
        let cs' := if fr.status = 200 then cachePutIn cs DYNAMIC_CACHE req.url fr else cs
        ⟨FetchOutcome.respond (some fr), cs', 1⟩
      | none => ⟨FetchOutcome.failed, cs, 1⟩
  else
    match cachesMatch cs req.url with
    | some r => ⟨FetchOutcome.respond (some r), cs, 0⟩
    | none =>
      match net req.url with
      | some fr =>
        let cs' := if fr.status = 200 then cachePutIn cs DYNAMIC_CACHE req.url fr else cs
        ⟨FetchOutcome.respond (some fr), cs', 1⟩
      | none =>
        if req.destination = "image" then
          ⟨FetchOutcome.respond (some ⟨404, ""⟩), cs, 1⟩
        else
          ⟨FetchOutcome.respond none, cs, 1⟩

/-- The `data` field of a message event. -/
structure MessageData where
  type : String

/-- Result of running the message handler: whether `self.skipWaiting()` was
called and what, if anything, was posted back over `event.ports[0]`
(the `version` field of the posted object). -/
structure MessageResult where
  skipWaiting : Bool
  reply : Option String
deriving DecidableEq, Repr

/-- The message handler (sw.js lines 165-173). -/
def messageHandler (data : Option MessageData) : MessageResult :=
  let sw : Bool := match data with
    | some d => d.type == "SKIP_WAITING"
    | none => false
  let rep : Option String := match data with
    | some d => if d.type = "GET_VERSION" then some CACHE_NAME else none
    | none => none
  ⟨sw, rep⟩

/-- The version suffix embedded in a cache name: the characters after the
last hyphen (`"rogers-static-v2"` ↦ `"v2"`). -/
def versionSuffix (s : String) : String :=
  ⟨(s.data.reverse.takeWhile (fun c => c ≠ '-')).reverse⟩

/-- A partition `p` agrees at key `k` with value `v`: some entry has key `k`,
and every entry with key `k` carries value `v`. -/
def AgreesAt (p : Partition) (k : String) (v : Response) : Prop :=
  (∃ e ∈ p, e.1 = k) ∧ ∀ e ∈ p, e.1 = k → e.2 = v

theorem partLookup_nil (k : String) : partLookup [] k = none := rfl

theorem partLookup_partPut_self (p : Partition) (k : String) (v : Response) :
    partLookup (partPut p k v) k = some v := by
  unfold partPut partLookup
  by_cases h : p.any (fun e => e.1 = k)
  · rw [if_pos h, List.find?_map]
    have hf : ((fun (e : String × Response) => decide (e.1 = k)) ∘
        (fun e => if e.1 = k then (k, v) else e)) =
        (fun (e : String × Response) => decide (e.1 = k)) := by
      funext e
      by_cases he : e.1 = k <;> simp [he]
    rw [hf]
    obtain ⟨e₀, he₀, hq⟩ := List.any_eq_true.mp h
    have hsome : (p.find? (fun e => decide (e.1 = k))).isSome := by
      rw [List.find?_isSome]
      exact ⟨e₀, he₀, hq⟩
    obtain ⟨e₁, he₁⟩ := Option.isSome_iff_exists.mp hsome
    have hk : e₁.1 = k := by
      have := List.find?_some he₁
      simpa using this
    rw [he₁]
    simp [hk]
  · rw [if_neg h, List.find?_append]
    have hnone : p.find? (fun e => decide (e.1 = k)) = none := by
      rw [List.find?_eq_none]
      intro x hx
      intro hq
      exact h (List.any_eq_true.mpr ⟨x, hx, hq⟩)
    rw [hnone]
    simp

theorem cachesMatch_eq_none_iff (cs : CacheState) (url : String) :
    cachesMatch cs url = none ↔ ∀ e ∈ cs, partLookup e.2 url = none := by
  induction cs with
  | nil => simp [cachesMatch]
  | cons e t ih =>
    obtain ⟨n, p⟩ := e
    unfold cachesMatch
    cases hp : partLookup p url with
    | some r => simp [hp]
    | none => simp [hp, ih]

theorem cacheOpen_any (cs : CacheState) (name : String) :
    (cacheOpen cs name).any (fun e => e.1 = name) = true := by
  unfold cacheOpen
  by_cases h : cs.any (fun e => e.1 = name)
  · rw [if_pos h]; exact h
  · rw [if_neg h]
    simp

theorem cachesMatch_cacheOpen_none (cs : CacheState) (name url : String)
    (h : cachesMatch cs url = none) :
    cachesMatch (cacheOpen cs name) url = none := by
  unfold cacheOpen
  by_cases hc : cs.any (fun e => e.1 = name)
  · rw [if_pos hc]; exact h
  · rw [if_neg hc]
    rw [cachesMatch_eq_none_iff] at h ⊢
    intro e he
    rcases List.mem_append.mp he with h1 | h2
    · exact h e h1
    · have : e = (name, []) := by simpa using h2
      rw [this]
      rfl

theorem cachesMatch_writeEntry_self (cs : CacheState) (name url : String) (v : Response)
    (h : ∀ e ∈ cs, partLookup e.2 url = none)
    (hmem : cs.any (fun e => e.1 = name) = true) :
    cachesMatch (writeEntry cs name url v) url = some v := by
  induction cs with
  | nil => simp at hmem
  | cons e t ih =>
    obtain ⟨n, p⟩ := e
    unfold writeEntry
    by_cases hn : n = name
    · simp only [List.map_cons]
      rw [if_pos (by simpa using hn)]
      unfold cachesMatch
      rw [partLookup_partPut_self]
    · simp only [List.map_cons]
      rw [if_neg (by simpa using hn)]
      unfold cachesMatch
      rw [h (n, p) (List.mem_cons_self _ _)]
      have hmem' : t.any (fun e => e.1 = name) = true := by
        rcases List.any_eq_true.mp hmem with ⟨x, hx, hq⟩
        rcases List.mem_cons.mp hx with h1 | h2
        · exfalso; apply hn; have : x.1 = name := by simpa using hq
          rw [h1] at this; exact this
        · exact List.any_eq_true.mpr ⟨x, h2, hq⟩
      exact ih (fun e he => h e (List.mem_cons_of_mem _ he)) hmem'

theorem cachesMatch_cachePutIn_self (cs : CacheState) (name url : String) (v : Response)
    (h : cachesMatch cs url = none) :
    cachesMatch (cachePutIn cs name url v) url = some v := by
  unfold cachePutIn
  have h1 := cachesMatch_cacheOpen_none cs name url h
  exact cachesMatch_writeEntry_self _ _ _ _
    ((cachesMatch_eq_none_iff _ _).mp h1) (cacheOpen_any cs name)

theorem lookupPartition_mapUpdate_ne (cs : CacheState) (name n : String)
    (g : Partition → Partition) (h : n ≠ name) :
    lookupPartition (cs.map (fun e => if e.1 = name then (e.1, g e.2) else e)) n
      = lookupPartition cs n := by
  unfold lookupPartition
  rw [List.find?_map]
  have hf : ((fun (e : String × Partition) => decide (e.1 = n)) ∘
      (fun e => if e.1 = name then (e.1, g e.2) else e)) =
      (fun (e : String × Partition) => decide (e.1 = n)) := by
    funext e
    by_cases he : e.1 = name <;> simp [he]
  rw [hf]
  cases hfind : cs.find? (fun e => decide (e.1 = n)) with
  | none => rfl
  | some e₀ =>
    have hk : e₀.1 = n := by simpa using List.find?_some hfind
    have : (if e₀.1 = name then (e₀.1, g e₀.2) else e₀) = e₀ := by
      rw [if_neg (by rw [hk]; exact h)]
    simp [this]

theorem lookupPartition_mapUpdate_self (cs : CacheState) (name : String)
    (g : Partition → Partition) :
    lookupPartition (cs.map (fun e => if e.1 = name then (e.1, g e.2) else e)) name
      = (lookupPartition cs name).map g := by
  unfold lookupPartition
  rw [List.find?_map]
  have hf : ((fun (e : String × Partition) => decide (e.1 = name)) ∘
      (fun e => if e.1 = name then (e.1, g e.2) else e)) =
      (fun (e : String × Partition) => decide (e.1 = name)) := by
    funext e
    by_cases he : e.1 = name <;> simp [he]
  rw [hf]
  cases hfind : cs.find? (fun e => decide (e.1 = name)) with
  | none => rfl
  | some e₀ =>
    have hk : e₀.1 = name := by simpa using List.find?_some hfind
    simp [hk]

theorem lookupPartition_cacheOpen_ne (cs : CacheState) (name n : String) (h : n ≠ name) :
    lookupPartition (cacheOpen cs name) n = lookupPartition cs n := by
  unfold cacheOpen
  by_cases hc : cs.any (fun e => e.1 = name)
  · rw [if_pos hc]
  · rw [if_neg hc]
    unfold lookupPartition
    rw [List.find?_append]
    have : List.find? (fun e => decide (e.1 = n)) [(name, ([] : Partition))] = none := by
      simp [Ne.symm h]
    rw [this, Option.or_none]

theorem lookupPartition_cacheOpen_self (cs : CacheState) (name : String) :
    lookupPartition (cacheOpen cs name) name
      = some ((lookupPartition cs name).getD []) := by
  unfold cacheOpen
  by_cases hc : cs.any (fun e => e.1 = name)
  · rw [if_pos hc]
    obtain ⟨e₀, he₀, hq⟩ := List.any_eq_true.mp hc
    have hs : (cs.find? (fun e => decide (e.1 = name))).isSome := by
      rw [List.find?_isSome]
      exact ⟨e₀, he₀, hq⟩
    obtain ⟨e₁, he₁⟩ := Option.isSome_iff_exists.mp hs
    unfold lookupPartition
    rw [he₁]
    rfl
  · rw [if_neg hc]
    have hnone : cs.find? (fun e => decide (e.1 = name)) = none := by
      rw [List.find?_eq_none]
      intro x hx hq
      exact hc (List.any_eq_true.mpr ⟨x, hx, hq⟩)
    unfold lookupPartition
    rw [List.find?_append, hnone]
    simp

theorem cacheOpen_of_any (cs : CacheState) (name : String)
    (h : cs.any (fun e => e.1 = name) = true) : cacheOpen cs name = cs := by
  unfold cacheOpen
  rw [if_pos h]

theorem any_of_lookup_isSome (cs : CacheState) (n : String)
    (h : (lookupPartition cs n).isSome) : cs.any (fun e => e.1 = n) = true := by
  unfold lookupPartition at h
  cases hfind : cs.find? (fun e => decide (e.1 = n)) with
  | none => rw [hfind] at h; simp at h
  | some e₀ =>
    have hq := List.find?_some hfind
    exact List.any_eq_true.mpr ⟨e₀, List.mem_of_find?_eq_some hfind, hq⟩

theorem find?_filter_of_imp {α : Type} (l : List α) (q pr : α → Bool)
    (h : ∀ x, q x = true → pr x = true) :
    (l.filter pr).find? q = l.find? q := by
  induction l with
  | nil => rfl
  | cons x t ih =>
    by_cases hq : q x = true
    · rw [List.filter_cons, if_pos (h x hq)]
      rw [List.find?_cons_of_pos _ hq, List.find?_cons_of_pos _ hq]
    · rw [List.filter_cons]
      by_cases hp : pr x = true
      · rw [if_pos hp, List.find?_cons_of_neg _ (by simpa using hq),
          List.find?_cons_of_neg _ (by simpa using hq)]
        exact ih
      · rw [if_neg hp, List.find?_cons_of_neg _ (by simpa using hq)]
        exact ih

theorem partPutAll_nil (p : Partition) : partPutAll p [] = p := rfl

theorem partPutAll_cons (p : Partition) (e : String × Response)
    (t : List (String × Response)) :
    partPutAll p (e :: t) = partPutAll (partPut p e.1 e.2) t := rfl

theorem partPut_eq_self (p : Partition) (k : String) (v : Response)
    (h : AgreesAt p k v) : partPut p k v = p := by
  obtain ⟨⟨e₀, he₀, hk⟩, hagree⟩ := h
  unfold partPut
  have hany : p.any (fun e => e.1 = k) = true :=
    List.any_eq_true.mpr ⟨e₀, he₀, by simpa using hk⟩
  rw [if_pos hany]
  conv_rhs => rw [← List.map_id p]
  apply List.map_congr_left
  intro e he
  by_cases hek : e.1 = k
  · rw [if_pos hek]
    have hv : e.2 = v := hagree e he hek
    cases e
    simp_all
  · rw [if_neg hek]
    rfl

theorem agreesAt_partPut_self (p : Partition) (k : String) (v : Response) :
    AgreesAt (partPut p k v) k v := by
  unfold partPut
  by_cases hany : p.any (fun e => e.1 = k) = true
  · rw [if_pos hany]
    obtain ⟨e₀, he₀, hq⟩ := List.any_eq_true.mp hany
    have hk₀ : e₀.1 = k := by simpa using hq
    constructor
    · refine ⟨(k, v), List.mem_map.mpr ⟨e₀, he₀, ?_⟩, rfl⟩
      rw [if_pos hk₀]
    · intro e he hek
      obtain ⟨x, hx, hfx⟩ := List.mem_map.mp he
      by_cases hxk : x.1 = k
      · rw [if_pos hxk] at hfx
        rw [← hfx]
      · rw [if_neg hxk] at hfx
        rw [← hfx] at hek
        exact absurd hek hxk
  · rw [if_neg hany]
    constructor
    · exact ⟨(k, v), List.mem_append.mpr (Or.inr (List.mem_singleton.mpr rfl)), rfl⟩
    · intro e he hek
      rcases List.mem_append.mp he with h1 | h2
      · exfalso
        exact hany (List.any_eq_true.mpr ⟨e, h1, by simpa using hek⟩)
      · rw [List.mem_singleton.mp h2]

theorem agreesAt_partPut_of_ne (p : Partition) (k : String) (v : Response)
    (k' : String) (v' : Response) (hne : k' ≠ k) (h : AgreesAt p k v) :
    AgreesAt (partPut p k' v') k v := by
  obtain ⟨⟨e₀, he₀, hk₀⟩, hagree⟩ := h
  unfold partPut
  by_cases hany : p.any (fun e => e.1 = k') = true
  · rw [if_pos hany]
    constructor
    · refine ⟨e₀, List.mem_map.mpr ⟨e₀, he₀, ?_⟩, hk₀⟩
      rw [if_neg (by rw [hk₀]; exact fun hh => hne (hh ▸ rfl))]
    · intro e he hek
      obtain ⟨x, hx, hfx⟩ := List.mem_map.mp he
      by_cases hxk : x.1 = k'
      · rw [if_pos hxk] at hfx
        rw [← hfx] at hek
        exact absurd hek.symm (fun hh => hne hh.symm)
      · rw [if_neg hxk] at hfx
        rw [← hfx]
        exact hagree x hx (by rw [← hfx] at hek; exact hek)
  · rw [if_neg hany]
    constructor
    · exact ⟨e₀, List.mem_append.mpr (Or.inl he₀), hk₀⟩
    · intro e he hek
      rcases List.mem_append.mp he with h1 | h2
      · exact hagree e h1 hek
      · rw [List.mem_singleton.mp h2] at hek
        exact absurd hek hne

theorem agreesAt_partPutAll (t : List (String × Response)) (q : Partition)
    (k : String) (v : Response)
    (hfun : ∀ e ∈ t, e.1 = k → e.2 = v)
    (h : AgreesAt q k v) : AgreesAt (partPutAll q t) k v := by
  induction t generalizing q with
  | nil => exact h
  | cons e t' ih =>
    rw [partPutAll_cons]
    by_cases hek : e.1 = k
    · have hev : e.2 = v := hfun e (List.mem_cons_self _ _) hek
      apply ih _ (fun x hx hxk => hfun x (List.mem_cons_of_mem _ hx) hxk)
      rw [hek, hev]
      exact agreesAt_partPut_self q k v
    · apply ih _ (fun x hx hxk => hfun x (List.mem_cons_of_mem _ hx) hxk)
      exact agreesAt_partPut_of_ne q k v e.1 e.2 hek h

theorem agreesAt_partPutAll_mem (l : List (String × Response)) (p : Partition)
    (hfun : ∀ e ∈ l, ∀ e' ∈ l, e.1 = e'.1 → e.2 = e'.2) :
    ∀ e ∈ l, AgreesAt (partPutAll p l) e.1 e.2 := by
  induction l generalizing p with
  | nil => intro e he; exact absurd he (List.not_mem_nil e)
  | cons x t ih =>
    intro e he
    rw [partPutAll_cons]
    rcases List.mem_cons.mp he with h1 | h2
    · rw [h1]
      apply agreesAt_partPutAll t (partPut p x.1 x.2) x.1 x.2
      · intro y hy hyk
        exact hfun y (List.mem_cons_of_mem _ hy) x (List.mem_cons_self _ _) hyk
      · exact agreesAt_partPut_self p x.1 x.2
    · exact ih (partPut p x.1 x.2)
        (fun a ha b hb => hfun a (List.mem_cons_of_mem _ ha) b (List.mem_cons_of_mem _ hb))
        e h2

theorem partPutAll_eq_self (l : List (String × Response)) (p : Partition)
    (h : ∀ e ∈ l, AgreesAt p e.1 e.2) : partPutAll p l = p := by
  induction l with
  | nil => rfl
  | cons x t ih =>
    rw [partPutAll_cons, partPut_eq_self p x.1 x.2 (h x (List.mem_cons_self _ _))]
    exact ih (fun e he => h e (List.mem_cons_of_mem _ he))

theorem partPutAll_idem (l : List (String × Response)) (p : Partition)
    (hfun : ∀ e ∈ l, ∀ e' ∈ l, e.1 = e'.1 → e.2 = e'.2) :
    partPutAll (partPutAll p l) l = partPutAll p l :=
  partPutAll_eq_self l (partPutAll p l) (agreesAt_partPutAll_mem l p hfun)

theorem addAllFetch_mem (net : String → Option Response) (urls : List String)
    (l : List (String × Response)) (h : addAllFetch net urls = some l) :
    ∀ e ∈ l, net e.1 = some e.2 := by
  induction urls generalizing l with
  | nil =>
    unfold addAllFetch at h
    cases h
    intro e he
    exact absurd he (List.not_mem_nil e)
  | cons u rest ih =>
    unfold addAllFetch at h
    cases hn : net u with
    | none => rw [hn] at h; cases h
    | some r =>
      rw [hn] at h
      cases hr : addAllFetch net rest with
      | none => rw [hr] at h; cases h
      | some l' =>
        rw [hr] at h
        simp only [Option.map_some'] at h
        cases h
        intro e he
        rcases List.mem_cons.mp he with h1 | h2
        · rw [h1]; exact hn
        · exact ih l' hr e h2

theorem lookupPartition_cachePutIn_ne (cs : CacheState) (name k n : String)
    (v : Response) (h : n ≠ name) :
    lookupPartition (cachePutIn cs name k v) n = lookupPartition cs n := by
  unfold cachePutIn writeEntry
  exact (lookupPartition_mapUpdate_ne (cacheOpen cs name) name n
    (fun p => partPut p k v) h).trans (lookupPartition_cacheOpen_ne cs name n h)

theorem lookupPartition_cachePutIn_self (cs : CacheState) (name k : String)
    (v : Response) :
    lookupPartition (cachePutIn cs name k v) name
      = some (partPut ((lookupPartition cs name).getD []) k v) := by
  unfold cachePutIn writeEntry
  rw [lookupPartition_mapUpdate_self (cacheOpen cs name) name (fun p => partPut p k v),
    lookupPartition_cacheOpen_self cs name]
  rfl

theorem fetchHandler_hit (selfOrigin : String) (net : String → Option Response)
    (cs : CacheState) (req : Request) (r : Response)
    (hm : req.method = "GET") (hhit : cachesMatch cs req.url = some r) :
    fetchHandler selfOrigin net cs req = ⟨FetchOutcome.respond (some r), cs, 0⟩ := by
  unfold fetchHandler
  rw [if_neg (fun hh => hh hm)]
  by_cases ho : req.origin = selfOrigin
  · rw [if_pos ho, hhit]
  · rw [if_neg ho, hhit]

/-- Claim C1, scenario: the fetch of static asset `./rogers.html` rejects during
install (all other fetches succeed), starting from an empty cache storage.
The claim says the promise given to `waitUntil` rejects and the worker does
not activate.  In the code, the promise chain does reject at `addAll`
(`installChain` is the chain without the trailing catch), and no entry is
written to the static partition — but the trailing
`.catch((error) => console.error(...))` swallows the rejection, so the
promise actually given to `waitUntil` fulfills and install succeeds
(with `skipWaiting` skipped). -/
theorem rogers_c1_install_failure_swallowed :
    (installChain
        (fun u => if u = "./rogers.html" then none else some ⟨200, "ok"⟩)
        []).settled = Settled.rejected ∧
    (installHandler
        (fun u => if u = "./rogers.html" then none else some ⟨200, "ok"⟩)
        []).settled = Settled.fulfilled ∧
    (installHandler
        (fun u => if u = "./rogers.html" then none else some ⟨200, "ok"⟩)
        []).skipWaiting = false ∧
    lookupPartition (installHandler
        (fun u => if u = "./rogers.html" then none else some ⟨200, "ok"⟩)
        []).caches STATIC_CACHE = some [] :=
  ⟨rfl, rfl, rfl, rfl⟩

/-- Claim C3: A request whose method is not GET is not intercepted: the handler
returns without calling `respondWith` (pass through to the network), performs
no cache lookup or network call, and leaves the cache storage unchanged. -/
theorem rogers_c3_non_get_pass_through (selfOrigin : String)
    (net : String → Option Response) (cs : CacheState) (req : Request)
    (h : req.method ≠ "GET") :
    fetchHandler selfOrigin net cs req = ⟨FetchOutcome.passThrough, cs, 0⟩ := by
  unfold fetchHandler
  rw [if_pos h]

theorem rogers_c3_witness :
    fetchHandler "https://rogers.example"
        (fun _ => some ⟨200, "ok"⟩) []
        ⟨"https://rogers.example/order", "POST", "https://rogers.example", ""⟩
      = ⟨FetchOutcome.passThrough, [], 0⟩ :=
  rogers_c3_non_get_pass_through _ _ _ _ (by decide)

/-- Claim C4: The activate handler deletes every partition whose name is
neither the current static nor the current dynamic partition name, and
leaves those two partitions (with their contents) intact. -/
theorem rogers_c4_activate_cleanup (cs : CacheState) (n : String)
    (h1 : n ≠ STATIC_CACHE) (h2 : n ≠ DYNAMIC_CACHE) :
    lookupPartition (activateHandler cs) n = none ∧
    lookupPartition (activateHandler cs) STATIC_CACHE
      = lookupPartition cs STATIC_CACHE ∧
    lookupPartition (activateHandler cs) DYNAMIC_CACHE
      = lookupPartition cs DYNAMIC_CACHE := by
  refine ⟨?_, ?_, ?_⟩
  · unfold activateHandler lookupPartition
    have hnone : (cs.filter
        (fun e => decide (e.1 = STATIC_CACHE ∨ e.1 = DYNAMIC_CACHE))).find?
        (fun e => decide (e.1 = n)) = none := by
      rw [List.find?_eq_none]
      intro x hx hq
      have hpr := (List.mem_filter.mp hx).2
      have hor : x.1 = STATIC_CACHE ∨ x.1 = DYNAMIC_CACHE := by simpa using hpr
      have hn : x.1 = n := by simpa using hq
      rcases hor with h | h
      · exact h1 (hn ▸ h)
      · exact h2 (hn ▸ h)
    rw [hnone]
    rfl
  · unfold activateHandler lookupPartition
    rw [find?_filter_of_imp]
    intro x hq
    have hx : x.1 = STATIC_CACHE := by simpa using hq
    simp [hx]
  · unfold activateHandler lookupPartition
    rw [find?_filter_of_imp]
    intro x hq
    have hx : x.1 = DYNAMIC_CACHE := by simpa using hq
    simp [hx]

theorem rogers_c4_witness :
    lookupPartition (activateHandler
        [("rogers-static-v1", []),
         ("rogers-static-v2", [("./", ⟨200, "home"⟩)]),
         ("rogers-dynamic-v2", [])]) "rogers-static-v1" = none ∧
    lookupPartition (activateHandler
        [("rogers-static-v1", []),
         ("rogers-static-v2", [("./", ⟨200, "home"⟩)]),
         ("rogers-dynamic-v2", [])]) STATIC_CACHE
      = lookupPartition
        [("rogers-static-v1", []),
         ("rogers-static-v2", [("./", ⟨200, "home"⟩)]),
         ("rogers-dynamic-v2", [])] STATIC_CACHE ∧
    lookupPartition (activateHandler
        [("rogers-static-v1", []),
         ("rogers-static-v2", [("./", ⟨200, "home"⟩)]),
         ("rogers-dynamic-v2", [])]) DYNAMIC_CACHE
      = lookupPartition
        [("rogers-static-v1", []),
         ("rogers-static-v2", [("./", ⟨200, "home"⟩)]),
         ("rogers-dynamic-v2", [])] DYNAMIC_CACHE :=
  rogers_c4_activate_cleanup _ _ (by decide) (by decide)

/-- Claim C5: For a cross-origin GET whose cache lookup misses, whose network
fetch rejects, and whose destination is `"image"`, the interceptor resolves
with a synthetic empty response of status 404 (one network call was made,
and the cache storage is unchanged). -/
theorem rogers_c5_image_fallback (selfOrigin : String)
    (net : String → Option Response) (cs : CacheState) (req : Request)
    (hm : req.method = "GET") (ho : req.origin ≠ selfOrigin)
    (hmiss : cachesMatch cs req.url = none) (hnet : net req.url = none)
    (hd : req.destination = "image") :
    fetchHandler selfOrigin net cs req
      = ⟨FetchOutcome.respond (some ⟨404, ""⟩), cs, 1⟩ := by
  unfold fetchHandler
  rw [if_neg (fun hh => hh hm), if_neg ho, hmiss, hnet, if_pos hd]

theorem rogers_c5_witness :
    fetchHandler "https://rogers.example" (fun _ => none) []
        ⟨"https://cdn.example/logo.png", "GET", "https://cdn.example", "image"⟩
      = ⟨FetchOutcome.respond (some ⟨404, ""⟩), [], 1⟩ :=
  rogers_c5_image_fallback _ _ _ _ rfl (by decide) rfl rfl rfl

/-- Claim C6: For a same-origin GET whose cache lookup misses and whose network
fetch rejects, the failure propagates to the page: the promise passed to
`respondWith` rejects (no synthetic fallback) and no cache entry is
written. -/
theorem rogers_c6_same_origin_failure (selfOrigin : String)
    (net : String → Option Response) (cs : CacheState) (req : Request)
    (hm : req.method = "GET") (ho : req.origin = selfOrigin)
    (hmiss : cachesMatch cs req.url = none) (hnet : net req.url = none) :
    fetchHandler selfOrigin net cs req = ⟨FetchOutcome.failed, cs, 1⟩ := by
  unfold fetchHandler
  rw [if_neg (fun hh => hh hm), if_pos ho, hmiss, hnet]

theorem rogers_c6_witness :
    fetchHandler "https://rogers.example" (fun _ => none) []
        ⟨"https://rogers.example/rogers.html", "GET", "https://rogers.example",
          "document"⟩
      = ⟨FetchOutcome.failed, [], 1⟩ :=
  rogers_c6_same_origin_failure _ _ _ _ rfl rfl rfl rfl

/-- Claim C7: On a `GET_VERSION` message the worker replies over the provided
channel with `CACHE_NAME`, and the version suffix embedded in that string is
exactly the version suffix embedded in the current static and dynamic
partition names (`v2`). -/
theorem rogers_c7_get_version :
    (messageHandler (some ⟨"GET_VERSION"⟩)).reply = some CACHE_NAME ∧
    versionSuffix CACHE_NAME = versionSuffix STATIC_CACHE ∧
    versionSuffix CACHE_NAME = versionSuffix DYNAMIC_CACHE ∧
    versionSuffix STATIC_CACHE = "v2" :=
  ⟨rfl, rfl, rfl, rfl⟩

/-- Claim C9: For a cross-origin GET whose cache lookup misses, whose network
fetch rejects, and whose destination is not `"image"`, the catch branch
returns no value, so the fetch event resolves with `undefined` rather than
rejecting. -/
theorem rogers_c9_non_image_undefined (selfOrigin : String)
    (net : String → Option Response) (cs : CacheState) (req : Request)
    (hm : req.method = "GET") (ho : req.origin ≠ selfOrigin)
    (hmiss : cachesMatch cs req.url = none) (hnet : net req.url = none)
    (hd : req.destination ≠ "image") :
    fetchHandler selfOrigin net cs req = ⟨FetchOutcome.respond none, cs, 1⟩ := by
  unfold fetchHandler
  rw [if_neg (fun hh => hh hm), if_neg ho, hmiss, hnet, if_neg hd]

theorem rogers_c9_witness :
    fetchHandler "https://rogers.example" (fun _ => none) []
        ⟨"https://unpkg.com/react@17/umd/react.production.min.js", "GET",
          "https://unpkg.com", "script"⟩
      = ⟨FetchOutcome.respond none, [], 1⟩ :=
  rogers_c9_non_image_undefined _ _ _ _ rfl (by decide) rfl rfl (by decide)

/-- Claim C10: Handling a fetch event never writes to any partition other than
the dynamic one: for every request and every partition name other than
`DYNAMIC_CACHE` — in particular `STATIC_CACHE` — the partition's content
after the fetch event equals its content before. -/
theorem rogers_c10_only_dynamic_written (selfOrigin : String)
    (net : String → Option Response) (cs : CacheState) (req : Request)
    (n : String) (h : n ≠ DYNAMIC_CACHE) :
    lookupPartition (fetchHandler selfOrigin net cs req).caches n
      = lookupPartition cs n := by
  unfold fetchHandler
  by_cases hm : req.method ≠ "GET"
  · rw [if_pos hm]
  · rw [if_neg hm]
    by_cases ho : req.origin = selfOrigin
    · rw [if_pos ho]
      cases hmiss : cachesMatch cs req.url with
      | some r => rfl
      | none =>
        cases hnet : net req.url with
        | some fr =>
          show lookupPartition
            (if fr.status = 200 then cachePutIn cs DYNAMIC_CACHE req.url fr else cs) n
            = lookupPartition cs n
          by_cases hs : fr.status = 200
          · rw [if_pos hs]
            exact lookupPartition_cachePutIn_ne cs DYNAMIC_CACHE req.url n fr h
          · rw [if_neg hs]
        | none => rfl
    · rw [if_neg ho]
      cases hmiss : cachesMatch cs req.url with
      | some r => rfl
      | none =>
        cases hnet : net req.url with
        | some fr =>
          show lookupPartition
            (if fr.status = 200 then cachePutIn cs DYNAMIC_CACHE req.url fr else cs) n
            = lookupPartition cs n
          by_cases hs : fr.status = 200
          · rw [if_pos hs]
            exact lookupPartition_cachePutIn_ne cs DYNAMIC_CACHE req.url n fr h
          · rw [if_neg hs]
        | none =>
          by_cases hd : req.destination = "image"
          · rw [if_pos hd]
          · rw [if_neg hd]

theorem rogers_c10_witness :
    lookupPartition (fetchHandler "https://rogers.example"
        (fun _ => some ⟨200, "fresh"⟩)
        [(STATIC_CACHE, [("./", ⟨200, "home"⟩)])]
        ⟨"https://rogers.example/menu.jpg", "GET", "https://rogers.example",
          "image"⟩).caches STATIC_CACHE
      = lookupPartition [(STATIC_CACHE, [("./", ⟨200, "home"⟩)])] STATIC_CACHE :=
  rogers_c10_only_dynamic_written _ _ _ _ _ (by decide)

theorem lookupPartition_writeAll_self (cs : CacheState) (name : String)
    (l : List (String × Response)) :
    lookupPartition (writeAll cs name l) name
      = (lookupPartition cs name).map (fun p => partPutAll p l) := by
  unfold writeAll
  exact lookupPartition_mapUpdate_self cs name (fun p => partPutAll p l)

theorem lookupPartition_writeAll_ne (cs : CacheState) (name n : String)
    (l : List (String × Response)) (h : n ≠ name) :
    lookupPartition (writeAll cs name l) n = lookupPartition cs n := by
  unfold writeAll
  exact lookupPartition_mapUpdate_ne cs name n (fun p => partPutAll p l) h

theorem installChain_static (net : String → Option Response) (cs : CacheState) :
    lookupPartition (installChain net cs).caches STATIC_CACHE
      = some ((addAllFetch net STATIC_ASSETS).elim
          ((lookupPartition cs STATIC_CACHE).getD [])
          (fun l => partPutAll ((lookupPartition cs STATIC_CACHE).getD []) l)) := by
  have hSD : STATIC_CACHE ≠ DYNAMIC_CACHE := by decide
  unfold installChain
  cases hA : addAllFetch net STATIC_ASSETS with
  | none =>
    exact lookupPartition_cacheOpen_self cs STATIC_CACHE
  | some l =>
    cases hE : addAllFetch net EXTERNAL_RESOURCES with
    | none =>
      show lookupPartition
          (cacheOpen (writeAll (cacheOpen cs STATIC_CACHE) STATIC_CACHE l)
            DYNAMIC_CACHE) STATIC_CACHE
        = some (partPutAll ((lookupPartition cs STATIC_CACHE).getD []) l)
      rw [lookupPartition_cacheOpen_ne _ DYNAMIC_CACHE STATIC_CACHE hSD,
        lookupPartition_writeAll_self, lookupPartition_cacheOpen_self]
      rfl
    | some l2 =>
      show lookupPartition
          (writeAll
            (cacheOpen (writeAll (cacheOpen cs STATIC_CACHE) STATIC_CACHE l)
              DYNAMIC_CACHE)
            DYNAMIC_CACHE l2) STATIC_CACHE
        = some (partPutAll ((lookupPartition cs STATIC_CACHE).getD []) l)
      rw [lookupPartition_writeAll_ne _ DYNAMIC_CACHE STATIC_CACHE l2 hSD,
        lookupPartition_cacheOpen_ne _ DYNAMIC_CACHE STATIC_CACHE hSD,
        lookupPartition_writeAll_self, lookupPartition_cacheOpen_self]
      rfl

/-- Claim C8: Install is idempotent on the static partition: running the
install handler a second time (against the same deterministic network) on
the cache storage produced by the first run leaves the static partition's
content exactly as it was after the first run — no entry is lost or
duplicated. -/
theorem rogers_c8_install_idempotent (net : String → Option Response)
    (cs : CacheState) :
    lookupPartition (installHandler net (installHandler net cs).caches).caches
        STATIC_CACHE
      = lookupPartition (installHandler net cs).caches STATIC_CACHE := by
  show lookupPartition (installChain net (installChain net cs).caches).caches
        STATIC_CACHE
      = lookupPartition (installChain net cs).caches STATIC_CACHE
  rw [installChain_static net (installChain net cs).caches,
    installChain_static net cs]
  cases hA : addAllFetch net STATIC_ASSETS with
  | none => rfl
  | some l =>
    have hfun : ∀ e ∈ l, ∀ e' ∈ l, e.1 = e'.1 → e.2 = e'.2 := by
      intro e he e' he' hk
      have h1 := addAllFetch_mem net STATIC_ASSETS l hA e he
      have h2 := addAllFetch_mem net STATIC_ASSETS l hA e' he'
      rw [hk] at h1
      exact Option.some.inj (h1.symm.trans h2)
    show some (partPutAll
        (partPutAll ((lookupPartition cs STATIC_CACHE).getD []) l) l)
      = some (partPutAll ((lookupPartition cs STATIC_CACHE).getD []) l)
    rw [partPutAll_idem l _ hfun]

/-- Claim C2: Cache-then-network for a same-origin GET not present in any
partition: exactly one network fetch is performed and the network response
is returned to the page; if its status is exactly 200 it is written into the
dynamic partition, so the URL is found there and a subsequent identical
fetch event is a cache hit served with no network call and no further cache
change; if the status is not 200 the cache storage is completely
unchanged. -/
theorem rogers_c2_cache_then_network (selfOrigin : String)
    (net : String → Option Response) (cs : CacheState) (req : Request)
    (fr : Response)
    (hm : req.method = "GET") (ho : req.origin = selfOrigin)
    (hmiss : cachesMatch cs req.url = none) (hnet : net req.url = some fr) :
    (fetchHandler selfOrigin net cs req).netCalls = 1 ∧
    (fetchHandler selfOrigin net cs req).outcome
      = FetchOutcome.respond (some fr) ∧
    (fr.status = 200 →
      partLookup ((lookupPartition (fetchHandler selfOrigin net cs req).caches
          DYNAMIC_CACHE).getD []) req.url = some fr ∧
      cachesMatch (fetchHandler selfOrigin net cs req).caches req.url
        = some fr ∧
      fetchHandler selfOrigin net (fetchHandler selfOrigin net cs req).caches req
        = ⟨FetchOutcome.respond (some fr),
           (fetchHandler selfOrigin net cs req).caches, 0⟩) ∧
    (fr.status ≠ 200 → (fetchHandler selfOrigin net cs req).caches = cs) := by
  have hF : fetchHandler selfOrigin net cs req =
      ⟨FetchOutcome.respond (some fr),
       if fr.status = 200 then cachePutIn cs DYNAMIC_CACHE req.url fr else cs,
       1⟩ := by
    unfold fetchHandler
    rw [if_neg (fun hh => hh hm), if_pos ho, hmiss, hnet]
  rw [hF]
  refine ⟨rfl, rfl, ?_, ?_⟩
  · intro hs
    rw [if_pos hs]
    refine ⟨?_, ?_, ?_⟩
    · rw [lookupPartition_cachePutIn_self]
      exact partLookup_partPut_self _ _ _
    · exact cachesMatch_cachePutIn_self cs DYNAMIC_CACHE req.url fr hmiss
    · exact fetchHandler_hit selfOrigin net _ req fr hm
        (cachesMatch_cachePutIn_self cs DYNAMIC_CACHE req.url fr hmiss)
  · intro hs
    rw [if_neg hs]

theorem rogers_c2_witness :
    (fetchHandler "https://rogers.example" (fun _ => some ⟨200, "body"⟩) []
        ⟨"https://rogers.example/menu.jpg", "GET", "https://rogers.example",
          "image"⟩).netCalls = 1 ∧
    (fetchHandler "https://rogers.example" (fun _ => some ⟨200, "body"⟩) []
        ⟨"https://rogers.example/menu.jpg", "GET", "https://rogers.example",
          "image"⟩).outcome = FetchOutcome.respond (some ⟨200, "body"⟩) ∧
    partLookup ((lookupPartition
        (fetchHandler "https://rogers.example" (fun _ => some ⟨200, "body"⟩) []
          ⟨"https://rogers.example/menu.jpg", "GET", "https://rogers.example",
            "image"⟩).caches DYNAMIC_CACHE).getD [])
        "https://rogers.example/menu.jpg" = some ⟨200, "body"⟩ ∧
    cachesMatch (fetchHandler "https://rogers.example"
        (fun _ => some ⟨200, "body"⟩) []
        ⟨"https://rogers.example/menu.jpg", "GET", "https://rogers.example",
          "image"⟩).caches "https://rogers.example/menu.jpg"
      = some ⟨200, "body"⟩ ∧
    fetchHandler "https://rogers.example" (fun _ => some ⟨200, "body"⟩)
        (fetchHandler "https://rogers.example" (fun _ => some ⟨200, "body"⟩) []
          ⟨"https://rogers.example/menu.jpg", "GET", "https://rogers.example",
            "image"⟩).caches
        ⟨"https://rogers.example/menu.jpg", "GET", "https://rogers.example",
          "image"⟩
      = ⟨FetchOutcome.respond (some ⟨200, "body"⟩),
         (fetchHandler "https://rogers.example" (fun _ => some ⟨200, "body"⟩) []
           ⟨"https://rogers.example/menu.jpg", "GET", "https://rogers.example",
             "image"⟩).caches, 0⟩ := by
  have h := rogers_c2_cache_then_network "https://rogers.example"
    (fun _ => some ⟨200, "body"⟩) []
    ⟨"https://rogers.example/menu.jpg", "GET", "https://rogers.example", "image"⟩
    ⟨200, "body"⟩ rfl rfl rfl rfl
  exact ⟨h.1, h.2.1, (h.2.2.1 rfl).1, (h.2.2.1 rfl).2.1, (h.2.2.1 rfl).2.2⟩

end RogersSW
